import Mathlib

/-!
Shallow embedding of the GanttDiagram backend (`src/main.go`), which holds two
program variants sharing one HTTP API:

* a flat-file variant persisting the task list as a JSON document in
  `gantt.json`, guarded by a `sync.Mutex`;
* a relational variant persisting the task list as rows of a SQLite table
  `tasks`, replaced wholesale inside a transaction.

Modelling conventions used throughout:

* Go `int` becomes `Int` (no claim exercises machine-width overflow);
* the flat-file backing file becomes `Option (List Task)`: `none` is an
  absent file, `some ts` a file holding the JSON serialization of `ts`.
  Go `json.MarshalIndent` on `[]Task` cannot fail and `json.Unmarshal`
  inverts it for this record type, so marshal/unmarshal are the identity on
  the model; I/O failures of `os.WriteFile` are injected via a Bool flag;
* the SQLite table becomes `List Task` in row order; the possible engine
  failures at each step of `saveTasksToDB` (begin / delete / prepare /
  each exec / commit) are injected via a scenario record, and the inherent
  `INTEGER PRIMARY KEY` uniqueness failure of `INSERT` is modelled directly;
* `time.Now().Year() + 1` becomes an arbitrary `nextYear : Nat` parameter.
-/

namespace Gantt

/-- `Task` from `main.go`: one Gantt task record.  Field names follow the Go
struct (lowercased as in the JSON tags). -/
structure Task where
  id : Int
  name : String
  start : String
  durationDays : Int
  color : String
  priority : Int
deriving DecidableEq, Repr

/-! ### Date arithmetic used by `getInitialTasks`

`getInitialTasks` builds `time.Date(nextYear, January, 1)` and calls
`AddDate(0, 0, n)` — which Go implements as `Date(y, m, d+n, …)` followed by
normalization of the overflowing day — then formats as `2006-01-02`
(zero-padded `YYYY-MM-DD`). -/

/-- Gregorian leap-year rule, as in the Go `time` package. -/
def isLeap (y : Nat) : Bool :=
  y % 4 == 0 && (y % 100 != 0 || y % 400 == 0)

/-- Days in month `m` (1-based) of year `y`. -/
def daysInMonth (y : Nat) : Nat → Nat
  | 1 => 31
  | 2 => if isLeap y then 29 else 28
  | 3 => 31
  | 4 => 30
  | 5 => 31
  | 6 => 30
  | 7 => 31
  | 8 => 31
  | 9 => 30
  | 10 => 31
  | 11 => 30
  | 12 => 31
  | _ => 30

/-- A calendar date (year, 1-based month, 1-based day). -/
structure Date where
  year : Nat
  month : Nat
  day : Nat
deriving DecidableEq, Repr

/-- Normalize a date whose day field may exceed the month length, as Go
`time.Date` does for overflowing fields.  `fuel` bounds the recursion; every
use in this development overflows by at most 24 days. -/
def normDate (fuel : Nat) (d : Date) : Date :=
  match fuel with
  | 0 => d
  | fuel + 1 =>
    if d.day > daysInMonth d.year d.month then
      if d.month ≥ 12 then
        normDate fuel ⟨d.year + 1, 1, d.day - daysInMonth d.year d.month⟩
      else
        normDate fuel ⟨d.year, d.month + 1, d.day - daysInMonth d.year d.month⟩
    else d

/-- Go `t.AddDate(0, 0, n)`: add `n` days to the day field and normalize. -/
def addDays (d : Date) (n : Nat) : Date :=
  normDate (n + 1) ⟨d.year, d.month, d.day + n⟩

/-- Zero-pad a natural number to at least `w` digits. -/
def padNat (w : Nat) (n : Nat) : String :=
  let s := toString n
  if s.length ≥ w then s else String.mk (List.replicate (w - s.length) (Char.ofNat 48)) ++ s

/-- Go `t.Format("2006-01-02")`: `YYYY-MM-DD` with zero padding. -/
def formatDate (d : Date) : String :=
  padNat 4 d.year ++ "-" ++ padNat 2 d.month ++ "-" ++ padNat 2 d.day

/-- `getInitialTasks` from `main.go`: the five default tasks seeded on first
run, with start dates laid out from January 1 of `nextYear`. -/
def getInitialTasks (nextYear : Nat) : List Task :=
  let start : Date := ⟨nextYear, 1, 1⟩
  [ ⟨1, "需求收集", formatDate start, 7, "#3B82F6", 4⟩,
    ⟨2, "系統設計", formatDate (addDays start 7), 5, "#F97316", 2⟩,
    ⟨3, "後端開發", formatDate (addDays start 12), 12, "#EF4444", 1⟩,
    ⟨4, "前端開發", formatDate (addDays start 12), 10, "#FBBF24", 3⟩,
    ⟨5, "整合測試", formatDate (addDays start 24), 8, "#10B981", 5⟩ ]

/-- `getTestTasks` from `main_test.go`: the two-task fixture (id 101 with
priority 5, id 102 with priority 1) starting February 1 2026. -/
def getTestTasks : List Task :=
  let testDate : Date := ⟨2026, 2, 1⟩
  [ ⟨101, "測試任務 A", formatDate testDate, 3, "#AAAAAA", 5⟩,
    ⟨102, "測試任務 B", formatDate (addDays testDate 3), 2, "#BBBBBB", 1⟩ ]

/-! ### Flat-file store (`gantt.json`) -/

/-- The backing file: absent, or holding the serialization of a task list. -/
abbrev FileState := Option (List Task)

/-- Errors surfaced by the flat-file store. -/
inductive FileErr where
  | writeErr
deriving DecidableEq, Repr

/-- `saveTasksToFile` from `main.go`: under the mutex, serialize `tasks` and
overwrite `gantt.json`.  Serialization of `[]Task` cannot fail; a failing
`os.WriteFile` is injected via `writeFails`, in which case the old contents
are kept and the error is returned. -/
def saveTasksToFile (writeFails : Bool) (tasks : List Task) (fs : FileState) :
    Except FileErr FileState :=
  if writeFails then .error .writeErr else .ok (some tasks)

/-- `loadTasksFromFile` from `main.go`: read `gantt.json`; if the file does
not exist, create it with `getInitialTasks` via `saveTasksToFile` and return
those; otherwise parse the stored document.  Returns the Go result together
with the file state after the call. -/
def loadTasksFromFile (writeFails : Bool) (nextYear : Nat) (fs : FileState) :
    Except FileErr (List Task) × FileState :=
  match fs with
  | none =>
    let tasks := getInitialTasks nextYear
    match saveTasksToFile writeFails tasks fs with
    | .error e => (.error e, fs)
    | .ok fs₁ => (.ok tasks, fs₁)
  | some tasks => (.ok tasks, fs)

/-- The file state observed after `saveTasksToFile` (unchanged on failure). -/
def fileAfterSave (writeFails : Bool) (tasks : List Task) (fs : FileState) :
    FileState :=
  match saveTasksToFile writeFails tasks fs with
  | .ok fs₁ => fs₁
  | .error _ => fs

/-! ### Relational store (SQLite variant)

The table `tasks(id INTEGER PRIMARY KEY, …)` is modelled as a `List Task` in
row order.  Engine-level failures of the individual statements executed by
`saveTasksToDB` are injected through a `DBScenario`; an `INSERT` additionally
fails on its own when the primary-key constraint is violated. -/

/-- Errors surfaced by the relational store, one per failing step of
`saveTasksToDB` / `initDB`. -/
inductive DBErr where
  | beginErr
  | deleteErr
  | prepareErr
  | execErr (id : Int)
  | commitErr
deriving DecidableEq, Repr

/-- Injected engine failures for one `saveTasksToDB` call: which of the
begin / delete / prepare / commit steps fail, and the indices of the insert
executions that fail for engine-side reasons. -/
structure DBScenario where
  beginFails : Bool
  deleteFails : Bool
  prepareFails : Bool
  execFailIdx : List Nat
  commitFails : Bool
deriving DecidableEq, Repr

/-- The scenario in which the engine reports no failure at any step. -/
def noDBFailure : DBScenario := ⟨false, false, false, [], false⟩

/-- The insert loop of `saveTasksToDB`: execute the prepared `INSERT` for each
task in order, appending to the transaction-local table `acc`.  Execution `i`
fails if the scenario injects a failure there or if the id of the task already
occurs in the table (the `INTEGER PRIMARY KEY` constraint). -/
def insertAll (sc : DBScenario) : Nat → List Task → List Task → Except DBErr (List Task)
  | _, [], acc => .ok acc
  | i, t :: rest, acc =>
    if i ∈ sc.execFailIdx ∨ acc.any (fun r => r.id == t.id) then .error (.execErr t.id)
    else insertAll sc (i + 1) rest (acc ++ [t])

/-- `saveTasksToDB` from `main.go`: inside one transaction, `DELETE FROM
tasks` then insert every task of `tasks` via a prepared statement; any failure
rolls the transaction back (the caller-visible table stays `st`) and the error
is returned; on success the transaction commits and the table is the inserted
rows.  The returned value is the committed table. -/
def saveTasksToDB (sc : DBScenario) (tasks : List Task) (st : List Task) :
    Except DBErr (List Task) :=
  if sc.beginFails then .error .beginErr
  else if sc.deleteFails then .error .deleteErr
  else if sc.prepareFails then .error .prepareErr
  else
    match insertAll sc 0 tasks [] with
    | .error e => .error e
    | .ok tx => if sc.commitFails then .error .commitErr else .ok tx

/-- The table observed after `saveTasksToDB`: the committed rows on success,
the original rows after a rollback. -/
def dbAfterSave (sc : DBScenario) (tasks : List Task) (st : List Task) :
    List Task :=
  match saveTasksToDB sc tasks st with
  | .ok st₁ => st₁
  | .error _ => st

/-- The order used by `ORDER BY priority`. -/
def priorityLE (a b : Task) : Prop := a.priority ≤ b.priority

instance : DecidableRel priorityLE := fun a b => Int.decLe a.priority b.priority

instance : IsTotal Task priorityLE := ⟨fun a b => Int.le_total a.priority b.priority⟩

instance : IsTrans Task priorityLE := ⟨fun _ _ _ h₁ h₂ => Int.le_trans h₁ h₂⟩

/-- `loadTasksFromDB` from `main.go`: `SELECT … FROM tasks ORDER BY priority`,
scanning each row in order.  A stable sort of the rows by ascending priority
models the ordered scan of the engine. -/
def loadTasksFromDB (st : List Task) : List Task :=
  List.insertionSort priorityLE st

/-- `initDB` from `main.go`, after the table exists: count the rows, and if
the table is empty, seed it through `saveTasksToDB` with `getInitialTasks`.
Returns the resulting table. -/
def initDB (sc : DBScenario) (nextYear : Nat) (st : List Task) :
    Except DBErr (List Task) :=
  if st.length == 0 then saveTasksToDB sc (getInitialTasks nextYear) st
  else .ok st

/-! ### HTTP boundary

`apiTasksHandler` exists in both variants.  `io.ReadAll` + `json.Unmarshal`
of the POST body is modelled by an `Option (List Task)`: `none` when reading
or parsing fails (the code answers 400 in both cases), `some tasks` when the
body is a valid JSON array of Task.  The `id` query parameter is the raw
string (`none` when absent), parsed by `atoi`. -/

/-- Read a non-empty run of decimal digits as a natural number; `none` as
soon as a non-digit occurs. -/
def digitsVal (acc : Nat) : List Char → Option Nat
  | [] => some acc
  | c :: cs =>
    if 48 ≤ c.toNat ∧ c.toNat ≤ 57 then digitsVal (acc * 10 + (c.toNat - 48)) cs
    else none

/-- Go `strconv.Atoi`: an optional sign followed by at least one digit
(machine-width overflow is not modelled). -/
def atoi (s : String) : Option Int :=
  match s.data with
  | [] => none
  | c :: cs =>
    if c.toNat == 45 then
      if cs = [] then none else (digitsVal 0 cs).map (fun n => -(n : Int))
    else if c.toNat == 43 then
      if cs = [] then none else (digitsVal 0 cs).map (fun n => (n : Int))
    else (digitsVal 0 (c :: cs)).map (fun n => (n : Int))

/-- HTTP status codes and the file state after the call. -/
abbrev FileResponse := Nat × FileState

/-- `apiTasksHandler` of the flat-file variant: GET loads, POST replaces the
collection with the parsed body, DELETE removes the tasks matching the `id`
query parameter (400 on a missing or unparsable id, 404 when no task
matches), anything else is 405.  The loop of the DELETE branch that keeps
tasks with `task.ID != taskID` and flags `found` is expressed with
`List.filter` and `List.any`. -/
def apiTasksHandlerFile (writeFails : Bool) (nextYear : Nat) (method : String)
    (body : Option (List Task)) (idParam : Option String) (fs : FileState) :
    FileResponse :=
  match method with
  | "GET" =>
    match loadTasksFromFile writeFails nextYear fs with
    | (.ok _, fs₁) => (200, fs₁)
    | (.error _, fs₁) => (500, fs₁)
  | "POST" =>
    match body with
    | none => (400, fs)
    | some tasks =>
      match saveTasksToFile writeFails tasks fs with
      | .ok fs₁ => (200, fs₁)
      | .error _ => (500, fs)
  | "DELETE" =>
    match idParam with
    | none => (400, fs)
    | some q =>
      match atoi q with
      | none => (400, fs)
      | some taskID =>
        match loadTasksFromFile writeFails nextYear fs with
        | (.error _, fs₁) => (500, fs₁)
        | (.ok currentTasks, fs₁) =>
          let newTasks := currentTasks.filter (fun t => t.id ≠ taskID)
          let found := currentTasks.any (fun t => t.id == taskID)
          if !found then (404, fs₁)
          else
            match saveTasksToFile writeFails newTasks fs₁ with
            | .ok fs₂ => (200, fs₂)
            | .error _ => (500, fs₁)
  | _ => (405, fs)

/-- `apiTasksHandler` of the relational variant: GET loads, POST replaces the
collection through `saveTasksToDB`, and every other method (DELETE included)
is 405.  Returns the status code and the table after the call. -/
def apiTasksHandlerDB (sc : DBScenario) (method : String)
    (body : Option (List Task)) (st : List Task) : Nat × List Task :=
  match method with
  | "GET" => (200, st)
  | "POST" =>
    match body with
    | none => (400, st)
    | some tasks =>
      match saveTasksToDB sc tasks st with
      | .ok st₁ => (200, st₁)
      | .error _ => (500, st)
  | _ => (405, st)

/-! ### Process startup -/

/-- `main` of the flat-file variant: call `loadTasksFromFile` once, and on
error only print it — execution falls through to `http.ListenAndServe`
unconditionally.  Returns whether the HTTP server is started, the result of
the initial load, and the file state at that point. -/
def mainFileVariant (writeFails : Bool) (nextYear : Nat) (fs : FileState) :
    Bool × Except FileErr (List Task) × FileState :=
  match loadTasksFromFile writeFails nextYear fs with
  | (res, fs₁) => (true, res, fs₁)

/-- `main` of the relational variant: `initDB`, and on error `log.Fatalf`
terminates the process before the server is started.  Returns whether the
HTTP server is started and the table at that point. -/
def mainDBVariant (sc : DBScenario) (nextYear : Nat) (st : List Task) :
    Bool × List Task :=
  match initDB sc nextYear st with
  | .ok st₁ => (true, st₁)
  | .error _ => (false, st)

/-! ### The mutex discipline of the flat-file store

Each store operation is modelled as the sequence of atomic events it
performs, in source order.  `os.WriteFile` is split into a begin and an end
event because an OS-level file write is not atomic — that split is exactly
what lets a concurrent reader observe a partially written document. -/

/-- Atomic events of the flat-file store operations. -/
inductive Ev where
  | lock
  | unlock
  | readFile
  | unmarshal
  | marshal
  | writeStart
  | writeEnd
deriving DecidableEq, Repr

/-- Event sequence of `loadTasksFromFile` on the existing-file path:
`os.ReadFile`, then `dataMutex.Lock()`, `json.Unmarshal`, `Unlock`. -/
def loadEvents : List Ev := [.readFile, .lock, .unmarshal, .unlock]

/-- Event sequence of `saveTasksToFile`: `dataMutex.Lock()`,
`json.MarshalIndent`, `os.WriteFile` (begin and end), `Unlock`. -/
def saveEvents : List Ev := [.lock, .marshal, .writeStart, .writeEnd, .unlock]

/-- Lock depth held just before event `i` of the sequence. -/
def lockDepthBefore (es : List Ev) (i : Nat) : Nat :=
  (es.take i).foldl
    (fun d e => match e with
      | .lock => d + 1
      | .unlock => d - 1
      | _ => d) 0

/-- The non-lock events of a sequence that are performed while the mutex is
not held. -/
def unguardedOps (es : List Ev) : List Ev :=
  ((List.range es.length).filterMap fun i =>
    match es.get? i with
    | some .lock => none
    | some .unlock => none
    | some e => if lockDepthBefore es i == 0 then some e else none
    | none => none)

/-- An interleaved execution of two threads: `false` tags the reader thread,
`true` the writer thread. -/
abbrev Trace := List (Bool × Ev)

/-- The events of thread `b` in a trace, in order. -/
def projThread (b : Bool) (tr : Trace) : List Ev :=
  (tr.filter (fun p => p.1 == b)).map (fun p => p.2)

/-- Mutual exclusion: walking the trace, a `lock` requires the mutex to be
free and an `unlock` requires the mutex to be held by that thread. -/
def mutexSteps (tr : Trace) (holder : Option Bool) : Bool :=
  match tr with
  | [] => true
  | (t, .lock) :: rest =>
    match holder with
    | none => mutexSteps rest (some t)
    | some _ => false
  | (t, .unlock) :: rest =>
    match holder with
    | some h => if h == t then mutexSteps rest none else false
    | none => false
  | (_, _) :: rest => mutexSteps rest holder

/-- A trace respects the mutex when its lock and unlock events are legal
starting from a free mutex. -/
def mutexOk (tr : Trace) : Bool := mutexSteps tr none

/-- A `readFile` of the reader falls strictly between `writeStart`
and `writeEnd` of the writer: the read observes a partially written document. -/
def readsMidWrite (tr : Trace) : Bool :=
  (List.range tr.length).any fun i =>
    (List.range tr.length).any fun j =>
      (List.range tr.length).any fun k =>
        decide (i < j) && decide (j < k)
          && tr.get? i == some (true, .writeStart)
          && tr.get? j == some (false, .readFile)
          && tr.get? k == some (true, .writeEnd)

/-- The property claimed of the mutex discipline: in no mutex-respecting
interleaving of one `loadTasksFromFile` with one `saveTasksToFile` does the
reader read the file in the middle of the write. -/
def mutexShieldsReaders : Prop :=
  ∀ tr : Trace, projThread false tr = loadEvents → projThread true tr = saveEvents →
    mutexOk tr = true → readsMidWrite tr = false

/-- A concrete mutex-respecting interleaving in which the `os.ReadFile`
of the reader happens inside the `os.WriteFile` of the writer: possible because
`loadTasksFromFile` reads the file before taking the lock. -/
def racyTrace : Trace :=
  [ (true, .lock), (true, .marshal), (true, .writeStart),
    (false, .readFile),
    (true, .writeEnd), (true, .unlock),
    (false, .lock), (false, .unmarshal), (false, .unlock) ]

/-! ### Helper lemmas -/

/-- A successful insert loop appends exactly the inserted tasks. -/
lemma insertAll_ok_eq (sc : DBScenario) :
    ∀ (ts acc res : List Task) (i : Nat),
      insertAll sc i ts acc = .ok res → res = acc ++ ts := by
  intro ts
  induction ts with
  | nil =>
    intro acc res i h
    simp [insertAll] at h
    simp [h]
  | cons t rest ih =>
    intro acc res i h
    unfold insertAll at h
    split at h
    · exact absurd h (by simp)
    · have h₂ := ih (acc ++ [t]) res (i + 1) h
      simpa using h₂

/-- With no injected execution failure and pairwise distinct ids, the insert
loop succeeds. -/
lemma insertAll_nodup_ok (sc : DBScenario) (hexec : sc.execFailIdx = []) :
    ∀ (ts acc : List Task) (i : Nat),
      ((acc ++ ts).map Task.id).Nodup → insertAll sc i ts acc = .ok (acc ++ ts) := by
  intro ts
  induction ts with
  | nil =>
    intro acc i _
    simp [insertAll]
  | cons t rest ih =>
    intro acc i hnd
    have hnotin : t.id ∉ acc.map Task.id := by
      have h₂ := hnd
      rw [List.map_append] at h₂
      have hdisj := List.disjoint_of_nodup_append h₂
      intro hmem
      exact hdisj hmem (by simp)
    have hany : acc.any (fun r => r.id == t.id) = false := by
      apply Bool.eq_false_iff.mpr
      intro hb
      obtain ⟨r, hr, he⟩ := List.any_eq_true.mp hb
      rw [beq_iff_eq] at he
      exact hnotin (he ▸ List.mem_map_of_mem Task.id hr)
    have hcond : ¬(i ∈ sc.execFailIdx ∨ acc.any (fun r => r.id == t.id) = true) := by
      rw [hexec, hany]
      simp
    unfold insertAll
    rw [if_neg hcond]
    have h₃ := ih (acc ++ [t]) (i + 1) (by simpa using hnd)
    simpa using h₃

/-- A committed `saveTasksToDB` leaves the table equal to its input. -/
lemma saveTasksToDB_ok_eq (sc : DBScenario) (tasks st st₁ : List Task)
    (h : saveTasksToDB sc tasks st = .ok st₁) : st₁ = tasks := by
  unfold saveTasksToDB at h
  by_cases hb : sc.beginFails = true
  · rw [if_pos hb] at h; exact Except.noConfusion h
  rw [if_neg hb] at h
  by_cases hd : sc.deleteFails = true
  · rw [if_pos hd] at h; exact Except.noConfusion h
  rw [if_neg hd] at h
  by_cases hp : sc.prepareFails = true
  · rw [if_pos hp] at h; exact Except.noConfusion h
  rw [if_neg hp] at h
  cases hins : insertAll sc 0 tasks [] with
  | error e => rw [hins] at h; exact Except.noConfusion h
  | ok tx =>
    rw [hins] at h
    dsimp only at h
    by_cases hc : sc.commitFails = true
    · rw [if_pos hc] at h; exact Except.noConfusion h
    · rw [if_neg hc] at h
      have htx : tx = st₁ := by injection h
      have h₂ := insertAll_ok_eq sc tasks [] tx 0 hins
      rw [← htx, h₂]
      simp

/-- With no injected failure and pairwise distinct ids, `saveTasksToDB`
commits its input. -/
lemma saveTasksToDB_noFail (tasks st : List Task)
    (h : (tasks.map Task.id).Nodup) :
    saveTasksToDB noDBFailure tasks st = .ok tasks := by
  unfold saveTasksToDB noDBFailure
  simp only [Bool.false_eq_true, if_false]
  rw [insertAll_nodup_ok _ rfl tasks [] 0 (by simpa using h)]
  simp

/-- `saveTasksToDB` first deletes every row, so its outcome does not depend
on the table it runs against. -/
lemma saveTasksToDB_state_free (sc : DBScenario) (tasks st₁ st₂ : List Task) :
    saveTasksToDB sc tasks st₁ = saveTasksToDB sc tasks st₂ := rfl

/-- Reduction of the DELETE branch of the flat-file handler with a parsable
id and a present backing file. -/
lemma apiDelete_eq (y : Nat) (body : Option (List Task)) (q : String) (i : Int)
    (ts : List Task) (hq : atoi q = some i) :
    apiTasksHandlerFile false y "DELETE" body (some q) (some ts) =
      if ts.any (fun t => t.id == i) then (200, some (ts.filter (fun t => t.id ≠ i)))
      else (404, some ts) := by
  by_cases hany : ts.any (fun t => t.id == i) = true
  · simp [apiTasksHandlerFile, hq, loadTasksFromFile, saveTasksToFile, hany]
  · simp [apiTasksHandlerFile, hq, loadTasksFromFile, saveTasksToFile, hany]

/-! ### Claim theorems -/

/-- C1: the relational ReplaceAll (`saveTasksToDB`) is one transaction of
delete-then-insert: whenever it commits, the final table is exactly the input
collection, and whenever any step fails, the transaction is rolled back, the
caller-visible table is unchanged, and the error is surfaced. -/
theorem claim1_saveTasksToDB_transactional (sc : DBScenario) (tasks st : List Task) :
    (∀ st₁, saveTasksToDB sc tasks st = .ok st₁ → st₁ = tasks) ∧
    (∀ e, saveTasksToDB sc tasks st = .error e → dbAfterSave sc tasks st = st) := by
  constructor
  · intro st₁ h
    exact saveTasksToDB_ok_eq sc tasks st st₁ h
  · intro e h
    unfold dbAfterSave
    rw [h]

/-- Witness for C1: a concrete committed run replaces the table, and a run
whose begin step fails leaves the table untouched. -/
theorem claim1_witness :
    (saveTasksToDB noDBFailure getTestTasks [] = .ok getTestTasks
      ∧ getTestTasks = getTestTasks)
    ∧ (saveTasksToDB ⟨true, false, false, [], false⟩ getTestTasks getTestTasks
        = .error .beginErr
      ∧ dbAfterSave ⟨true, false, false, [], false⟩ getTestTasks getTestTasks
        = getTestTasks) :=
  ⟨⟨rfl, (claim1_saveTasksToDB_transactional noDBFailure getTestTasks []).1 getTestTasks rfl⟩,
   ⟨rfl, (claim1_saveTasksToDB_transactional ⟨true, false, false, [], false⟩
      getTestTasks getTestTasks).2 .beginErr rfl⟩⟩

/-- C2: round-trip.  For a collection with pairwise distinct ids,
`ReplaceAll` then `Load` returns it: the flat-file backend returns it in the
same order, the relational backend returns a permutation of it sorted by
priority ascending. -/
theorem claim2_roundTrip (tasks : List Task) (fs : FileState) (st : List Task)
    (y : Nat) (hids : (tasks.map Task.id).Nodup) :
    (∃ fs₁, saveTasksToFile false tasks fs = .ok fs₁ ∧
      (loadTasksFromFile false y fs₁).1 = .ok tasks) ∧
    (∃ st₁, saveTasksToDB noDBFailure tasks st = .ok st₁ ∧
      (loadTasksFromDB st₁).Perm tasks ∧ (loadTasksFromDB st₁).Sorted priorityLE) := by
  constructor
  · exact ⟨some tasks, rfl, rfl⟩
  · exact ⟨tasks, saveTasksToDB_noFail tasks st hids,
      List.perm_insertionSort priorityLE tasks,
      List.sorted_insertionSort priorityLE tasks⟩

/-- Witness for C2 at the two-task test fixture. -/
theorem claim2_witness :
    (getTestTasks.map Task.id).Nodup ∧
    (∃ fs₁, saveTasksToFile false getTestTasks none = .ok fs₁ ∧
      (loadTasksFromFile false 2026 fs₁).1 = .ok getTestTasks) :=
  ⟨by decide, (claim2_roundTrip getTestTasks none [] 2026 (by decide)).1⟩

/-- C3: flat-file DELETE.  With a present backing file, deleting an id that
occurs in the collection answers 200 and stores exactly the original
collection with the matching entries removed (others unchanged, in order);
deleting an absent id answers 404 and stores the collection unchanged. -/
theorem claim3_deleteByID (ts : List Task) (i : Int) (q : String) (y : Nat)
    (body : Option (List Task)) (hq : atoi q = some i) :
    ((∃ t ∈ ts, t.id = i) →
      apiTasksHandlerFile false y "DELETE" body (some q) (some ts)
        = (200, some (ts.filter (fun t => t.id ≠ i))) ∧
      ∀ t ∈ ts.filter (fun t => t.id ≠ i), t.id ≠ i) ∧
    ((∀ t ∈ ts, t.id ≠ i) →
      apiTasksHandlerFile false y "DELETE" body (some q) (some ts) = (404, some ts)) := by
  constructor
  · intro hmem
    obtain ⟨t, ht, hid⟩ := hmem
    have hany : ts.any (fun r => r.id == i) = true :=
      List.any_eq_true.mpr ⟨t, ht, beq_iff_eq.mpr hid⟩
    constructor
    · rw [apiDelete_eq y body q i ts hq, if_pos hany]
    · intro r hr
      simpa using (List.mem_filter.mp hr).2
  · intro hall
    have hany : ts.any (fun r => r.id == i) = false := by
      apply Bool.eq_false_iff.mpr
      intro hb
      obtain ⟨t, ht, he⟩ := List.any_eq_true.mp hb
      exact hall t ht (beq_iff_eq.mp he)
    rw [apiDelete_eq y body q i ts hq, if_neg (by rw [hany]; simp)]

/-- Witness for C3: deleting the present id 101 answers 200 with it removed,
deleting the absent id 999 answers 404 with the store unchanged. -/
theorem claim3_witness :
    (atoi "101" = some 101 ∧ (∃ t ∈ getTestTasks, t.id = 101) ∧
      apiTasksHandlerFile false 2026 "DELETE" none (some "101") (some getTestTasks)
        = (200, some (getTestTasks.filter (fun t => t.id ≠ 101)))) ∧
    (atoi "999" = some 999 ∧ (∀ t ∈ getTestTasks, t.id ≠ 999) ∧
      apiTasksHandlerFile false 2026 "DELETE" none (some "999") (some getTestTasks)
        = (404, some getTestTasks)) :=
  ⟨⟨by decide, by decide,
    ((claim3_deleteByID getTestTasks 101 "101" 2026 none (by decide)).1 (by decide)).1⟩,
   ⟨by decide, by decide,
    (claim3_deleteByID getTestTasks 999 "999" 2026 none (by decide)).2 (by decide)⟩⟩

/-- C4: first-run seeding.  On an absent file, `loadTasksFromFile` writes and
returns exactly `getInitialTasks`; on an empty table, `initDB` seeds it via
`saveTasksToDB` with the same five tasks (whose ids are 1 through 5), and the
relational Load then returns exactly those tasks (as a permutation). -/
theorem claim4_firstRunSeeding (y : Nat) :
    loadTasksFromFile false y none
      = (.ok (getInitialTasks y), some (getInitialTasks y)) ∧
    initDB noDBFailure y [] = .ok (getInitialTasks y) ∧
    (loadTasksFromDB (getInitialTasks y)).Perm (getInitialTasks y) ∧
    (getInitialTasks y).map Task.id = [1, 2, 3, 4, 5] := by
  refine ⟨rfl, ?_, List.perm_insertionSort priorityLE (getInitialTasks y),
    by simp [getInitialTasks]⟩
  simp [initDB, saveTasksToDB, noDBFailure, insertAll, getInitialTasks]

/-- C5: a POST whose body does not parse as a JSON array of Task answers 400
in both variants and the stored collection is unchanged (no save runs). -/
theorem claim5_malformedPost (w : Bool) (y : Nat) (idp : Option String)
    (fs : FileState) (sc : DBScenario) (st : List Task) :
    apiTasksHandlerFile w y "POST" none idp fs = (400, fs) ∧
    apiTasksHandlerDB sc "POST" none st = (400, st) :=
  ⟨rfl, rfl⟩

/-- C6: the relational Load always returns the stored tasks sorted by
priority ascending; on the concrete store [(id 101, priority 5),
(id 102, priority 1)] it returns [102, 101]; the flat-file Load returns the
stored collection in its stored order. -/
theorem claim6_loadOrdering :
    (∀ st : List Task,
      (loadTasksFromDB st).Perm st ∧ (loadTasksFromDB st).Sorted priorityLE) ∧
    loadTasksFromDB getTestTasks = getTestTasks.reverse ∧
    (loadTasksFromDB getTestTasks).map Task.id = [102, 101] ∧
    (∀ (w : Bool) (y : Nat) (ts : List Task),
      (loadTasksFromFile w y (some ts)).1 = .ok ts) :=
  ⟨fun st => ⟨List.perm_insertionSort priorityLE st,
      List.sorted_insertionSort priorityLE st⟩,
   by decide, by decide, fun _ _ _ => rfl⟩

/-- C7: ReplaceAll is idempotent in both backends: a second identical call
leaves the stored collection, and hence the Load result, unchanged — for
every collection and every (fixed) failure scenario. -/
theorem claim7_replaceAllIdempotent (w : Bool) (tasks : List Task) (fs : FileState)
    (sc : DBScenario) (st : List Task) (y : Nat) :
    fileAfterSave w tasks (fileAfterSave w tasks fs) = fileAfterSave w tasks fs ∧
    dbAfterSave sc tasks (dbAfterSave sc tasks st) = dbAfterSave sc tasks st ∧
    (loadTasksFromFile w y (fileAfterSave w tasks (fileAfterSave w tasks fs))).1
      = (loadTasksFromFile w y (fileAfterSave w tasks fs)).1 ∧
    loadTasksFromDB (dbAfterSave sc tasks (dbAfterSave sc tasks st))
      = loadTasksFromDB (dbAfterSave sc tasks st) := by
  have hfile : fileAfterSave w tasks (fileAfterSave w tasks fs) = fileAfterSave w tasks fs := by
    cases w <;> simp [fileAfterSave, saveTasksToFile]
  have hdb : dbAfterSave sc tasks (dbAfterSave sc tasks st) = dbAfterSave sc tasks st := by
    cases hs : saveTasksToDB sc tasks st with
    | error e =>
      have h₁ : dbAfterSave sc tasks st = st := by unfold dbAfterSave; rw [hs]
      rw [h₁]
      exact h₁
    | ok st₁ =>
      have hteq := saveTasksToDB_ok_eq sc tasks st st₁ hs
      have h₁ : dbAfterSave sc tasks st = tasks := by
        unfold dbAfterSave
        rw [hs, hteq]
      rw [h₁]
      have hs₂ : saveTasksToDB sc tasks tasks = .ok st₁ :=
        (saveTasksToDB_state_free sc tasks tasks st).trans hs
      unfold dbAfterSave
      rw [hs₂, hteq]
  exact ⟨hfile, hdb, by rw [hfile], by rw [hdb]⟩

/-- Counterexample to C8 as stated: in the flat-file variant the initial
load fails (here: the seed write fails on an absent file), yet `main` only
prints the error and still starts the HTTP server. -/
theorem claim8_counterexample :
    (loadTasksFromFile true 2026 none).1 = .error .writeErr ∧
    (mainFileVariant true 2026 none).1 = true :=
  ⟨rfl, rfl⟩

/-- C8 amended: store-initialization failure is fatal only in the relational
variant — a failing `initDB` stops `main` before the server starts — while
the flat-file variant starts the server regardless of the initial load
outcome. -/
theorem claim8_amended (sc : DBScenario) (y : Nat) (st : List Task)
    (w : Bool) (fs : FileState) :
    (∀ e, initDB sc y st = .error e → (mainDBVariant sc y st).1 = false) ∧
    (mainFileVariant w y fs).1 = true := by
  constructor
  · intro e h
    unfold mainDBVariant
    rw [h]
  · rfl

/-- Witness for the amended C8 at a concrete failing scenario. -/
theorem claim8_witness :
    initDB ⟨true, false, false, [], false⟩ 2026 [] = .error .beginErr ∧
    (mainDBVariant ⟨true, false, false, [], false⟩ 2026 []).1 = false ∧
    (mainFileVariant true 2026 none).1 = true :=
  ⟨rfl,
   (claim8_amended ⟨true, false, false, [], false⟩ 2026 [] true none).1 .beginErr rfl,
   (claim8_amended ⟨true, false, false, [], false⟩ 2026 [] true none).2⟩

/-- Counterexample to C9 as stated: the mutex does not shield readers — a
mutex-respecting interleaving of one load with one save exists in which the
reader reads the backing file in the middle of the write, because
`loadTasksFromFile` calls `os.ReadFile` before taking the lock. -/
theorem claim9_counterexample : ¬ mutexShieldsReaders := by
  intro h
  exact absurd (h racyTrace (by decide) (by decide) (by decide)) (by decide)

/-- C9 amended: the mutex guards the unmarshal of the load path and the
marshal and file write of the save path, but the file read of the load path
runs outside the lock, so a mutex-respecting interleaving lets a reader
observe a partially written document. -/
theorem claim9_amended :
    unguardedOps loadEvents = [.readFile] ∧
    unguardedOps saveEvents = [] ∧
    projThread false racyTrace = loadEvents ∧
    projThread true racyTrace = saveEvents ∧
    mutexOk racyTrace = true ∧
    readsMidWrite racyTrace = true := by
  decide

/-- C10: when several stored tasks share the requested id, the flat-file
DELETE removes every one of them (the filter keeps no task with that id and
keeps every other task) and answers 200 since at least one existed. -/
theorem claim10_deleteDuplicates (ts : List Task) (i : Int) (q : String) (y : Nat)
    (body : Option (List Task)) (hq : atoi q = some i) (hmem : ∃ t ∈ ts, t.id = i) :
    apiTasksHandlerFile false y "DELETE" body (some q) (some ts)
      = (200, some (ts.filter (fun t => t.id ≠ i))) ∧
    (∀ t ∈ ts.filter (fun t => t.id ≠ i), t.id ≠ i) ∧
    (∀ t ∈ ts, t.id ≠ i → t ∈ ts.filter (fun t => t.id ≠ i)) := by
  obtain ⟨t, ht, hid⟩ := hmem
  have hany : ts.any (fun r => r.id == i) = true :=
    List.any_eq_true.mpr ⟨t, ht, beq_iff_eq.mpr hid⟩
  refine ⟨?_, ?_, ?_⟩
  · rw [apiDelete_eq y body q i ts hq, if_pos hany]
  · intro r hr
    simpa using (List.mem_filter.mp hr).2
  · intro r hr hne
    exact List.mem_filter.mpr ⟨hr, by simpa using hne⟩

/-- Witness for C10: two stored tasks share id 7; one DELETE removes both and
answers 200. -/
theorem claim10_witness :
    atoi "7" = some 7 ∧
    (∃ t ∈ ([⟨7, "a", "2026-01-01", 1, "#111111", 1⟩,
             ⟨7, "b", "2026-01-02", 2, "#222222", 2⟩,
             ⟨8, "c", "2026-01-03", 3, "#333333", 3⟩] : List Task), t.id = 7) ∧
    apiTasksHandlerFile false 2026 "DELETE" none (some "7")
        (some [⟨7, "a", "2026-01-01", 1, "#111111", 1⟩,
               ⟨7, "b", "2026-01-02", 2, "#222222", 2⟩,
               ⟨8, "c", "2026-01-03", 3, "#333333", 3⟩])
      = (200, some [⟨8, "c", "2026-01-03", 3, "#333333", 3⟩]) := by
  refine ⟨by decide, by decide, ?_⟩
  rw [(claim10_deleteDuplicates
    [⟨7, "a", "2026-01-01", 1, "#111111", 1⟩,
     ⟨7, "b", "2026-01-02", 2, "#222222", 2⟩,
     ⟨8, "c", "2026-01-03", 3, "#333333", 3⟩] 7 "7" 2026 none (by decide) (by decide)).1]
  decide

end Gantt
